import Mathlib

/-!
Shallow embedding of the Aegora custody/arbitration core, translated from
`src/contracts/EscrowContract.sol` (the escrow ledger) and the dispute
arbitration contract (`DisputeContract`).  Addresses are modelled as `Nat`
(0 is the zero address); token amounts and timestamps are `Nat`; the EVM's
transactional semantics (a failed `require` reverts every state write of the
call) is modelled by operations returning `Option State`, where `none` is a
revert that leaves the caller's state untouched.  Outbound asset transfers
are recorded in an append-only `payments` log of (recipient, amount) pairs.
External keccak hashing is abstracted as an arbitrary function argument, and
the outcome of an external cross-contract call is passed in as a boolean.
-/

/-- Status of an escrow record (`EscrowStatus` in EscrowContract.sol). -/
inductive EscrowStatus where
  | active
  | completed
  | disputed
  | cancelled
deriving DecidableEq

/-- An escrow record (`struct Escrow` in EscrowContract.sol). -/
structure Escrow where
  buyer : Nat
  seller : Nat
  arbitrator : Nat
  amount : Nat
  tokenAddress : Nat
  status : EscrowStatus
  createdAt : Nat
  completedAt : Nat
  termsHash : String
  evidenceHash : String
  disputeId : Nat
  buyerConfirmed : Bool
  sellerConfirmed : Bool
deriving DecidableEq

/-- Configuration of the escrow contract: the owner (fee sink and admin),
the linked dispute contract address (`disputeContract`, 0 when unset) and
the fee in basis points (`escrowFee`). -/
structure EParams where
  owner : Nat
  disputeContract : Nat
  escrowFee : Nat
deriving DecidableEq

/-- Observable state of one escrow: the record plus the log of outbound
transfers the contract has issued ((recipient, amount) pairs). -/
structure EState where
  escrow : Escrow
  payments : List (Nat × Nat)
deriving DecidableEq

/-- `_completeEscrow` (EscrowContract.sol, lines 278-303): marks the escrow
Completed, computes `fee = amount * escrowFee / 10000`, transfers
`amount - fee` to the winner and, when the fee is positive, `fee` to the
owner.  The ETH and ERC20 branches issue the same two transfers, so one
model covers both. -/
def completeEscrow (p : EParams) (winner now : Nat) (st : EState) : EState :=
  let e := st.escrow
  let fee := e.amount * p.escrowFee / 10000
  let payout := e.amount - fee
  { escrow := { e with status := EscrowStatus.completed, completedAt := now },
    payments := st.payments ++ [(winner, payout)]
      ++ (if 0 < fee then [(p.owner, fee)] else []) }

/-- `confirmCompletion` (EscrowContract.sol, lines 179-199): requires an
Active escrow and a party caller; sets the caller's confirmation flag; when
both flags are set, completes the escrow in favour of the seller. -/
def confirmCompletion (p : EParams) (sender now : Nat) (st : EState) :
    Option EState :=
  let e := st.escrow
  if e.status ≠ EscrowStatus.active then none
  else if ¬ (sender = e.buyer ∨ sender = e.seller) then none
  else
    let e1 := if sender = e.buyer then { e with buyerConfirmed := true }
              else { e with sellerConfirmed := true }
    let st1 : EState := { st with escrow := e1 }
    if e1.buyerConfirmed ∧ e1.sellerConfirmed then
      some (completeEscrow p e1.seller now st1)
    else some st1

/-- `createDispute` on the escrow side (EscrowContract.sol, lines 223-246):
requires Active, a party caller and a linked dispute contract; marks the
escrow Disputed and stores the evidence hash, then calls the dispute
contract; if that external call fails (`disputeOk = false`) the whole
transaction reverts; otherwise the returned dispute id is stored. -/
def escCreateDispute (p : EParams) (sender : Nat) (evidenceHash : String)
    (disputeOk : Bool) (newDisputeId : Nat) (st : EState) : Option EState :=
  let e := st.escrow
  if e.status ≠ EscrowStatus.active then none
  else if ¬ (sender = e.buyer ∨ sender = e.seller) then none
  else if p.disputeContract = 0 then none
  else if disputeOk then
    some { st with escrow :=
      { e with status := EscrowStatus.disputed,
               evidenceHash := evidenceHash, disputeId := newDisputeId } }
  else none

/-- `cancelEscrow` (EscrowContract.sol, lines 309-327): requires Active and
caller ∈ {buyer, seller, owner}; marks the escrow Cancelled and refunds the
full amount to the buyer. -/
def cancelEscrow (p : EParams) (sender : Nat) (st : EState) : Option EState :=
  let e := st.escrow
  if e.status ≠ EscrowStatus.active then none
  else if ¬ (sender = e.buyer ∨ sender = e.seller ∨ sender = p.owner) then none
  else some { escrow := { e with status := EscrowStatus.cancelled },
              payments := st.payments ++ [(e.buyer, e.amount)] }

/-- `resolveDispute` on the escrow side (EscrowContract.sol, lines 265-271):
requires caller = linked dispute contract or owner, and a Disputed escrow;
completes the escrow in favour of the given winner. -/
def escResolveDispute (p : EParams) (sender winner now : Nat) (st : EState) :
    Option EState :=
  if ¬ (sender = p.disputeContract ∨ sender = p.owner) then none
  else if st.escrow.status ≠ EscrowStatus.disputed then none
  else some (completeEscrow p winner now st)

/-- The escrow status transitions the spec allows: no change, or one of
Active→Completed, Active→Disputed, Active→Cancelled, Disputed→Completed. -/
def allowedTransition : EscrowStatus → EscrowStatus → Bool
  | EscrowStatus.active, EscrowStatus.active => true
  | EscrowStatus.active, EscrowStatus.completed => true
  | EscrowStatus.active, EscrowStatus.disputed => true
  | EscrowStatus.active, EscrowStatus.cancelled => true
  | EscrowStatus.disputed, EscrowStatus.completed => true
  | EscrowStatus.disputed, EscrowStatus.disputed => true
  | EscrowStatus.completed, EscrowStatus.completed => true
  | EscrowStatus.cancelled, EscrowStatus.cancelled => true
  | _, _ => false

/-!
Dispute arbitration contract (`DisputeContract`).  One `DCState` holds one
dispute case together with the juror registry, the active-juror pool, the
contract's token balance and the outbound transfer log; distinct cases only
share the registry, which no claim needs, so one case suffices.
-/

/-- A juror's vote (`enum Vote` in DisputeContract). -/
inductive Vote where
  | none
  | buyer
  | seller
deriving DecidableEq

/-- Status of a dispute case (`enum DisputeStatus` in DisputeContract). -/
inductive DStatus where
  | pending
  | inProgress
  | resolved
  | cancelled
deriving DecidableEq

/-- A juror registry record (`struct Juror` in DisputeContract). -/
structure Juror where
  stake : Nat
  reputation : Nat
  isActive : Bool
  lastActive : Nat
deriving DecidableEq

/-- A dispute case (`struct Dispute` in DisputeContract); the per-juror
mappings `hasVoted` and `voteHashes` are total functions on addresses. -/
structure Dispute where
  escrowId : Nat
  buyer : Nat
  seller : Nat
  jurors : List Nat
  status : DStatus
  createdAt : Nat
  resolvedAt : Nat
  evidenceHash : String
  votes : List Vote
  buyerVotes : Nat
  sellerVotes : Nat
  totalStake : Nat
  hasVoted : Nat → Bool
  voteHashes : Nat → Nat

/-- Configuration of the dispute contract: owner, linked escrow contract
address (0 when unset) and the tunable parameters. -/
structure DParams where
  owner : Nat
  escrowContract : Nat
  minJurorStake : Nat
  maxJurorsPerDispute : Nat
  minJurorsPerDispute : Nat
  disputeTimeout : Nat
  votingPeriod : Nat
  revealPeriod : Nat
  rewardPoolPercentage : Nat
deriving DecidableEq

/-- Full observable state: the dispute case, the juror registry mapping,
the active juror pool, the contract's token balance, the outbound transfer
log, and the log of successful resolution callbacks into the escrow
contract ((escrowId, winner) pairs). -/
structure DCState where
  dispute : Dispute
  jurors : Nat → Juror
  activeJurors : List Nat
  contractBalance : Nat
  payments : List (Nat × Nat)
  escrowCalls : List (Nat × Nat)

/-- Pointwise update of a mapping at one key. -/
def fupd {α : Type} (f : Nat → α) (k : Nat) (v : α) : Nat → α :=
  fun x => if x = k then v else f x

/-- Swap-with-last removal used by `unregisterJuror` (DisputeContract,
lines 112-118): the first occurrence of `x` is overwritten with the last
element and the last slot is popped. -/
def swapRemove (l : List Nat) (x : Nat) : List Nat :=
  if l.contains x then (l.set (l.indexOf x) (l.getD (l.length - 1) 0)).dropLast
  else l

/-- `unregisterJuror` (DisputeContract, lines 103-121): requires an active
registration; deactivates the record, refunds the stake and removes the
juror from the active pool by swap-with-last. -/
def unregisterJuror (p : DParams) (sender : Nat) (st : DCState) :
    Option DCState :=
  let jr := st.jurors sender
  if jr.isActive = false then none
  else some { st with
    jurors := fupd st.jurors sender { jr with isActive := false },
    contractBalance := st.contractBalance - jr.stake,
    payments := st.payments ++ [(sender, jr.stake)],
    activeJurors := swapRemove st.activeJurors sender }

/-- One step of the partial Fisher-Yates selection (`_selectRandomJurors`,
DisputeContract lines 411-418): after position `j` of the live region is
picked, the last live element is written into slot `j` and the live region
shrinks by one. -/
def removeSwap (w : List Nat) (j : Nat) : List Nat :=
  (w.set j (w.getD (w.length - 1) 0)).dropLast

/-- The selection loop of `_selectRandomJurors`: `w` is the live region of
the candidates array, `i` the loop counter feeding the per-step hash
`r i % w.length`, and the fuel is the number of jurors still to pick. -/
def fyPick (r : Nat → Nat) : Nat → List Nat → Nat → List Nat
  | _, _, 0 => []
  | _, [], _ + 1 => []
  | i, a :: w, k + 1 =>
    let j := r i % (a :: w).length
    (a :: w).getD j 0 :: fyPick r (i + 1) (removeSwap (a :: w) j) k

/-- `_selectRandomJurors` (DisputeContract, lines 389-421): picks
`min(poolSize, maxJurorsPerDispute)` jurors from the active pool by a
partial Fisher-Yates shuffle; the keccak-derived random stream is
abstracted as `r`. -/
def selectRandomJurors (r : Nat → Nat) (maxJ : Nat) (pool : List Nat) :
    List Nat :=
  fyPick r 0 pool (min pool.length maxJ)

/-- `createDispute` (DisputeContract, lines 142-187): requires caller ∈
{linked escrow contract, owner}, non-zero distinct parties and an active
pool of at least `minJurorsPerDispute`; selects jurors, snapshots their
total stake and opens the case InProgress.  (The follow-up `setDisputeId`
notification call is fire-and-forget and does not touch this contract's
state.) -/
def createDispute (p : DParams) (r : Nat → Nat) (escrowId caller buyer
    seller : Nat) (evidenceHash : String) (now : Nat) (st : DCState) :
    Option DCState :=
  if ¬ (caller = p.escrowContract ∨ caller = p.owner) then none
  else if buyer = 0 ∨ seller = 0 then none
  else if buyer = seller then none
  else if st.activeJurors.length < p.minJurorsPerDispute then none
  else
    let selected := selectRandomJurors r p.maxJurorsPerDispute st.activeJurors
    some { st with dispute :=
      { escrowId := escrowId, buyer := buyer, seller := seller,
        jurors := selected, status := DStatus.inProgress, createdAt := now,
        resolvedAt := 0, evidenceHash := evidenceHash,
        votes := List.replicate selected.length Vote.none,
        buyerVotes := 0, sellerVotes := 0,
        totalStake := (selected.map (fun a => (st.jurors a).stake)).sum,
        hasVoted := fun _ => false, voteHashes := fun _ => 0 } }

/-- `castVote` (DisputeContract, lines 194-216), the commit phase: requires
an InProgress case within the voting window, an assigned juror who has not
committed yet and a non-zero hash; stores the commit hash. -/
def castVote (p : DParams) (now sender voteHash : Nat) (st : DCState) :
    Option DCState :=
  let d := st.dispute
  if d.status ≠ DStatus.inProgress then none
  else if ¬ now ≤ d.createdAt + p.votingPeriod then none
  else if ¬ d.jurors.contains sender then none
  else if d.hasVoted sender then none
  else if voteHash = 0 then none
  else some { st with dispute :=
    { d with voteHashes := fupd d.voteHashes sender voteHash,
             hasVoted := fupd d.hasVoted sender true } }

/-- The reputation penalty applied to a juror who did not vote for the
winner (DisputeContract, line 367): minus 10, floored at zero. -/
def penaltyRep (r : Nat) : Nat := if 10 < r then r - 10 else 0

/-- Whether a revealed vote matches the winner (DisputeContract,
lines 330-335 and 350-355). -/
def votedCorrectly (buyer seller winner : Nat) (v : Vote) : Bool :=
  (winner == buyer && v == Vote.buyer) || (winner == seller && v == Vote.seller)

/-- The number of jurors whose revealed vote matches the winner
(`correctVoters`, DisputeContract lines 325-340). -/
def countCorrect (d : Dispute) (winner : Nat) : Nat :=
  (d.jurors.zip d.votes).countP
    (fun jv => votedCorrectly d.buyer d.seller winner jv.2)

/-- One iteration of the reward/penalty loop of `_distributeRewards`
(DisputeContract, lines 346-372): a correct voter is paid
`rewardPerJuror` (when it is positive and the balance suffices) and gains
10 reputation; any other assigned juror loses 10 reputation, floored at
zero, with no token movement; either way `lastActive` is refreshed. -/
def rewardStep (buyer seller winner rewardPerJuror now : Nat) (st : DCState)
    (jv : Nat × Vote) : DCState :=
  let j := jv.1
  let jr := st.jurors j
  let st1 :=
    if votedCorrectly buyer seller winner jv.2 then
      if 0 < rewardPerJuror ∧ rewardPerJuror ≤ st.contractBalance then
        let jr2 := { jr with reputation := jr.reputation + 10 }
        { st with
          contractBalance := st.contractBalance - rewardPerJuror,
          payments := st.payments ++ [(j, rewardPerJuror)],
          jurors := fupd st.jurors j jr2 }
      else st
    else
      let jr2 := { jr with reputation := penaltyRep jr.reputation }
      { st with jurors := fupd st.jurors j jr2 }
  let jr3 := { st1.jurors j with lastActive := now }
  { st1 with jurors := fupd st1.jurors j jr3 }

/-- `_distributeRewards` (DisputeContract, lines 318-382): computes the
reward pool (`totalStake * rewardPoolPercentage / 10000`) and the number of
correct voters; only when both are positive does it run the reward/penalty
loop over the assigned jurors; finally, when an escrow contract is linked,
it performs the `resolveDispute` callback and reverts the whole transaction
if that call fails (`escrowOk = false`). -/
def distributeRewards (p : DParams) (now : Nat) (escrowOk : Bool)
    (winner : Nat) (st : DCState) : Option DCState :=
  let d := st.dispute
  let totalRewardPool := d.totalStake * p.rewardPoolPercentage / 10000
  let correctVoters := countCorrect d winner
  let st1 :=
    if 0 < correctVoters ∧ 0 < totalRewardPool then
      (d.jurors.zip d.votes).foldl
        (rewardStep d.buyer d.seller winner (totalRewardPool / correctVoters)
          now) st
    else st
  if p.escrowContract ≠ 0 then
    if escrowOk then
      some { st1 with
        escrowCalls := st1.escrowCalls ++ [(d.escrowId, winner)] }
    else none
  else some st1

/-- The winner choice of `_resolveDispute` (DisputeContract,
lines 294-302): buyer on strictly more buyer votes, seller on strictly
more seller votes, buyer on a tie. -/
def disputeWinner (d : Dispute) : Nat :=
  if d.sellerVotes < d.buyerVotes then d.buyer
  else if d.buyerVotes < d.sellerVotes then d.seller
  else d.buyer

/-- `_resolveDispute` (DisputeContract, lines 288-308): marks the case
Resolved, picks the winner and distributes rewards, which also performs
the escrow callback. -/
def resolveDisputeInternal (p : DParams) (now : Nat) (escrowOk : Bool)
    (st : DCState) : Option DCState :=
  let d := st.dispute
  let winner := disputeWinner d
  let st1 : DCState := { st with dispute :=
    { d with status := DStatus.resolved, resolvedAt := now } }
  distributeRewards p now escrowOk winner st1

/-- `revealVote` (DisputeContract, lines 224-270): requires an InProgress
case within the reveal window, an assigned juror who committed and has not
revealed, and `hash(vote, nonce)` equal to the stored commit; records the
vote, bumps the matching counter and, when every assigned juror has now
revealed, resolves the case immediately. -/
def revealVote (p : DParams) (hashFn : Vote → Nat → Nat) (now sender : Nat)
    (vote : Vote) (nonce : Nat) (escrowOk : Bool) (st : DCState) :
    Option DCState :=
  let d := st.dispute
  if d.status ≠ DStatus.inProgress then none
  else if ¬ d.createdAt + p.votingPeriod < now then none
  else if ¬ now ≤ d.createdAt + p.votingPeriod + p.revealPeriod then none
  else if ¬ d.jurors.contains sender then none
  else
    let idx := d.jurors.indexOf sender
    if d.hasVoted sender = false then none
    else if d.votes.getD idx Vote.none ≠ Vote.none then none
    else if d.voteHashes sender ≠ hashFn vote nonce then none
    else
      let newVotes := d.votes.set idx vote
      let bv := if vote = Vote.buyer then d.buyerVotes + 1 else d.buyerVotes
      let sv := if vote = Vote.seller then d.sellerVotes + 1 else d.sellerVotes
      let d1 := { d with votes := newVotes, buyerVotes := bv,
                         sellerVotes := sv }
      let st1 : DCState := { st with dispute := d1 }
      if newVotes.contains Vote.none then some st1
      else resolveDisputeInternal p now escrowOk st1

/-- `resolveDisputeTimeout` (DisputeContract, lines 276-282): anyone may
force resolution of an InProgress case once the dispute timeout has
elapsed. -/
def resolveDisputeTimeout (p : DParams) (now : Nat) (escrowOk : Bool)
    (st : DCState) : Option DCState :=
  if st.dispute.status ≠ DStatus.inProgress then none
  else if ¬ st.dispute.createdAt + p.disputeTimeout < now then none
  else resolveDisputeInternal p now escrowOk st

/-! Concrete fixtures used by witnesses and counterexamples. -/

/-- A 1.0-unit (10^18 wei) active escrow between buyer 1 and seller 2 in
which the seller has already confirmed. -/
def sampleEscrow : Escrow :=
  { buyer := 1, seller := 2, arbitrator := 0,
    amount := 1000000000000000000, tokenAddress := 0,
    status := EscrowStatus.active, createdAt := 0, completedAt := 0,
    termsHash := "t", evidenceHash := "", disputeId := 0,
    buyerConfirmed := false, sellerConfirmed := true }

/-- Escrow parameters: owner 3 (the fee sink), linked dispute contract 4,
default 25 bps fee. -/
def sampleEParams : EParams :=
  { owner := 3, disputeContract := 4, escrowFee := 25 }

/-- Escrow contract state holding `sampleEscrow` with an empty transfer
log. -/
def sampleEState : EState := { escrow := sampleEscrow, payments := [] }

/-- The same escrow in Disputed status. -/
def sampleEStateDisputed : EState :=
  { escrow := { sampleEscrow with status := EscrowStatus.disputed },
    payments := [] }

/-- C1: on an Active escrow, the confirmation that makes both flags true
completes the escrow: it computes `fee = amount * feeBps / 10000`,
transfers `amount - fee` to the seller and `fee` to the fee sink (the
owner), and sets the status to Completed. -/
theorem c1_both_confirm_pays_seller_and_sink (p : EParams) (st : EState)
    (sender now : Nat)
    (hact : st.escrow.status = EscrowStatus.active)
    (hcase : (sender = st.escrow.buyer ∧ st.escrow.sellerConfirmed = true) ∨
             (sender = st.escrow.seller ∧ sender ≠ st.escrow.buyer ∧
              st.escrow.buyerConfirmed = true)) :
    ∃ st', confirmCompletion p sender now st = some st' ∧
      st'.escrow.status = EscrowStatus.completed ∧
      st'.payments = st.payments
        ++ [(st.escrow.seller,
             st.escrow.amount - st.escrow.amount * p.escrowFee / 10000)]
        ++ (if 0 < st.escrow.amount * p.escrowFee / 10000 then
              [(p.owner, st.escrow.amount * p.escrowFee / 10000)] else []) := by
  rcases hcase with ⟨hs, hc⟩ | ⟨hs, hne, hc⟩
  · subst hs
    have h : confirmCompletion p st.escrow.buyer now st =
        some (completeEscrow p st.escrow.seller now
          ⟨{ st.escrow with buyerConfirmed := true }, st.payments⟩) := by
      simp [confirmCompletion, hact, hc]
    exact ⟨_, h, rfl, rfl⟩
  · subst hs
    have h : confirmCompletion p st.escrow.seller now st =
        some (completeEscrow p st.escrow.seller now
          ⟨{ st.escrow with sellerConfirmed := true }, st.payments⟩) := by
      simp [confirmCompletion, hact, hne, hc]
    exact ⟨_, h, rfl, rfl⟩

/-- Witness for C1 at the spec's Scenario A: a 1.0-unit escrow with a
25 bps fee pays the seller 0.9975 units and the fee sink 0.0025 units. -/
theorem c1_both_confirm_pays_seller_and_sink_witness :
    ∃ st', confirmCompletion sampleEParams 1 5 sampleEState = some st' ∧
      st'.escrow.status = EscrowStatus.completed ∧
      st'.payments = [(2, 997500000000000000), (3, 2500000000000000)] := by
  have h := c1_both_confirm_pays_seller_and_sink sampleEParams sampleEState 1 5
    rfl (Or.inl ⟨rfl, rfl⟩)
  simpa using h

/-- C4: every status change any escrow operation performs lies in
{Active→Completed, Active→Disputed, Active→Cancelled, Disputed→Completed},
and Completed and Cancelled are terminal: from them every operation
reverts. -/
theorem c4_escrow_status_transitions (p : EParams) (st : EState) :
    (∀ sender now st', confirmCompletion p sender now st = some st' →
        allowedTransition st.escrow.status st'.escrow.status = true) ∧
    (∀ sender ev ok nid st',
        escCreateDispute p sender ev ok nid st = some st' →
        allowedTransition st.escrow.status st'.escrow.status = true) ∧
    (∀ sender st', cancelEscrow p sender st = some st' →
        allowedTransition st.escrow.status st'.escrow.status = true) ∧
    (∀ sender w now st', escResolveDispute p sender w now st = some st' →
        allowedTransition st.escrow.status st'.escrow.status = true) ∧
    ((st.escrow.status = EscrowStatus.completed ∨
      st.escrow.status = EscrowStatus.cancelled) →
      (∀ sender now, confirmCompletion p sender now st = none) ∧
      (∀ sender ev ok nid, escCreateDispute p sender ev ok nid st = none) ∧
      (∀ sender, cancelEscrow p sender st = none) ∧
      (∀ sender w now, escResolveDispute p sender w now st = none)) := by
  refine ⟨?_, ?_, ?_, ?_, ?_⟩
  · intro sender now st' h
    simp only [confirmCompletion] at h
    repeat' split at h
    all_goals first
      | exact Option.noConfusion h
      | (injection h with h2; subst h2)
    all_goals simp_all [completeEscrow, allowedTransition]
  · intro sender ev ok nid st' h
    simp only [escCreateDispute] at h
    repeat' split at h
    all_goals first
      | exact Option.noConfusion h
      | (injection h with h2; subst h2)
    all_goals simp_all [allowedTransition]
  · intro sender st' h
    simp only [cancelEscrow] at h
    repeat' split at h
    all_goals first
      | exact Option.noConfusion h
      | (injection h with h2; subst h2)
    all_goals simp_all [allowedTransition]
  · intro sender w now st' h
    simp only [escResolveDispute] at h
    repeat' split at h
    all_goals first
      | exact Option.noConfusion h
      | (injection h with h2; subst h2)
    all_goals simp_all [completeEscrow, allowedTransition]
  · intro hterm
    have hne : st.escrow.status ≠ EscrowStatus.active := by
      rcases hterm with h | h <;> simp [h]
    have hnd : st.escrow.status ≠ EscrowStatus.disputed := by
      rcases hterm with h | h <;> simp [h]
    refine ⟨?_, ?_, ?_, ?_⟩
    · intro sender now
      simp [confirmCompletion, hne]
    · intro sender ev ok nid
      simp [escCreateDispute, hne]
    · intro sender
      simp [cancelEscrow, hne]
    · intro sender w now
      simp [escResolveDispute, hnd]

/-- The escrow record after the completing confirmation on
`sampleEState`. -/
def sampleCompletedEscrow : Escrow :=
  { sampleEscrow with status := EscrowStatus.completed, completedAt := 5,
                      buyerConfirmed := true }

/-- The state produced by the completing confirmation on `sampleEState`. -/
def sampleCompleted : EState :=
  { escrow := sampleCompletedEscrow,
    payments := [(2, 997500000000000000), (3, 2500000000000000)] }

/-- Witness for C4: a concrete Active→Completed transition taken by
`confirmCompletion` is in the allowed set. -/
theorem c4_escrow_status_transitions_witness :
    allowedTransition sampleEState.escrow.status
      sampleCompleted.escrow.status = true :=
  (c4_escrow_status_transitions sampleEParams sampleEState).1 1 5
    sampleCompleted (by decide)

/-- Counterexample to C7 as stated: the owner (address 3), who is not the
linked dispute contract (address 4), successfully calls the escrow-side
`resolveDispute` on a Disputed escrow, so it is not true that every caller
other than the linked dispute component is rejected. -/
theorem c7_owner_can_resolve_counterexample :
    (escResolveDispute sampleEParams 3 9 5 sampleEStateDisputed).isSome
        = true ∧
      sampleEParams.owner = 3 ∧ sampleEParams.disputeContract ≠ 3 := by
  decide

/-- C7 amended: the escrow-side `resolveDispute` is callable only by the
linked dispute contract or the owner — any other caller is rejected — and
it also requires the escrow to be Disputed; a permitted caller on a
Disputed escrow succeeds. -/
theorem c7_resolve_auth_amended (p : EParams) (st : EState)
    (sender w now : Nat) :
    (sender ≠ p.disputeContract → sender ≠ p.owner →
      escResolveDispute p sender w now st = none) ∧
    (st.escrow.status ≠ EscrowStatus.disputed →
      escResolveDispute p sender w now st = none) ∧
    (st.escrow.status = EscrowStatus.disputed →
      (sender = p.disputeContract ∨ sender = p.owner) →
      (escResolveDispute p sender w now st).isSome = true) := by
  refine ⟨?_, ?_, ?_⟩
  · intro h1 h2
    simp [escResolveDispute, h1, h2]
  · intro h
    simp [escResolveDispute, h]
  · intro h hauth
    simp [escResolveDispute, h, hauth]

/-- Witness for the amended C7: a stranger (address 7) is rejected, and
the linked dispute contract (address 4) succeeds on a Disputed escrow. -/
theorem c7_resolve_auth_amended_witness :
    escResolveDispute sampleEParams 7 9 5 sampleEStateDisputed = none ∧
    (escResolveDispute sampleEParams 4 9 5 sampleEStateDisputed).isSome
      = true :=
  ⟨(c7_resolve_auth_amended sampleEParams sampleEStateDisputed 7 9 5).1
      (by decide) (by decide),
   (c7_resolve_auth_amended sampleEParams sampleEStateDisputed 4 9 5).2.2
      (by decide) (Or.inl rfl)⟩

/-! Lemmas about the partial Fisher-Yates selection. -/

/-- Removing one live slot shrinks the live region by one. -/
theorem removeSwap_length (w : List Nat) (j : Nat) :
    (removeSwap w j).length = w.length - 1 := by
  simp [removeSwap]

/-- The picked element together with the shrunken live region is a
permutation of the live region it was picked from. -/
theorem removeSwap_cons_perm : ∀ (w : List Nat) (j : Nat), j < w.length →
    List.Perm (w.getD j 0 :: removeSwap w j) w := by
  intro w
  induction w with
  | nil =>
    intro j hj
    simp at hj
  | cons a t ih =>
    intro j hj
    cases j with
    | zero =>
      cases t with
      | nil => simp [removeSwap]
      | cons b u =>
        have hL : ((a :: b :: u : List Nat).set 0
            ((a :: b :: u).getD ((a :: b :: u).length - 1) 0)).dropLast
            = (b :: u).getLast (List.cons_ne_nil b u) :: (b :: u).dropLast := by
          simp [List.getD_eq_getElem, List.getLast_eq_getElem]
        simp only [removeSwap, hL, List.getD_cons_zero]
        refine List.Perm.cons a ?_
        have hsplit := List.dropLast_concat_getLast (List.cons_ne_nil b u)
        have h1 : List.Perm
            ((b :: u).getLast (List.cons_ne_nil b u) :: (b :: u).dropLast)
            ((b :: u).dropLast ++
              [(b :: u).getLast (List.cons_ne_nil b u)]) :=
          (List.perm_append_singleton _ _).symm
        rw [hsplit] at h1
        exact h1
    | succ k =>
      have hk : k < t.length := by
        simpa using hj
      have htne : t ≠ [] := by
        intro hnil
        rw [hnil] at hk
        simp at hk
      have hset : ((a :: t : List Nat).set (k + 1)
          ((a :: t).getD ((a :: t).length - 1) 0))
          = a :: t.set k (t.getD (t.length - 1) 0) := by
        cases t with
        | nil => simp at hk
        | cons c v => simp
      have hrs : removeSwap (a :: t) (k + 1)
          = a :: removeSwap t k := by
        rw [removeSwap, hset, List.dropLast_cons_of_ne_nil, removeSwap]
        intro hnil
        apply htne
        have := congrArg List.length hnil
        simpa using this
      rw [hrs, List.getD_cons_succ]
      exact List.Perm.trans (List.Perm.swap a (t.getD k 0) _)
        (List.Perm.cons a (ih k hk))

/-- The selection loop returns a block that extends to a permutation of
the pool it selects from. -/
theorem fyPick_append_perm (r : Nat → Nat) :
    ∀ (k i : Nat) (w : List Nat), k ≤ w.length →
      ∃ rest, List.Perm (fyPick r i w k ++ rest) w := by
  intro k
  induction k with
  | zero =>
    intro i w h
    exact ⟨w, by simp [fyPick]⟩
  | succ k ih =>
    intro i w h
    cases w with
    | nil => simp at h
    | cons a t =>
      have hj : r i % (a :: t).length < (a :: t).length :=
        Nat.mod_lt _ (by simp)
      have hlen : (removeSwap (a :: t) (r i % (a :: t).length)).length
          = t.length := by
        simp [removeSwap_length]
      obtain ⟨rest, hrest⟩ :=
        ih (i + 1) (removeSwap (a :: t) (r i % (a :: t).length))
          (by rw [hlen]; exact Nat.le_of_succ_le_succ h)
      refine ⟨rest, ?_⟩
      show List.Perm (((a :: t).getD (r i % (a :: t).length) 0 ::
        fyPick r (i + 1) (removeSwap (a :: t) (r i % (a :: t).length)) k)
          ++ rest) (a :: t)
      exact List.Perm.trans (List.Perm.cons _ hrest)
        (removeSwap_cons_perm _ _ hj)

/-- The selection loop picks exactly as many jurors as its fuel allows
while the live region lasts. -/
theorem fyPick_length (r : Nat → Nat) :
    ∀ (k i : Nat) (w : List Nat), k ≤ w.length →
      (fyPick r i w k).length = k := by
  intro k
  induction k with
  | zero =>
    intro i w _
    simp [fyPick]
  | succ k ih =>
    intro i w h
    cases w with
    | nil => simp at h
    | cons a t =>
      have hlen : (removeSwap (a :: t) (r i % (a :: t).length)).length
          = t.length := by
        simp [removeSwap_length]
      show ((a :: t).getD (r i % (a :: t).length) 0 ::
        fyPick r (i + 1) (removeSwap (a :: t) (r i % (a :: t).length)) k).length
          = k + 1
      rw [List.length_cons, ih (i + 1) _
        (by rw [hlen]; exact Nat.le_of_succ_le_succ h)]

/-- A Nodup pool yields a Nodup selection. -/
theorem fyPick_nodup (r : Nat → Nat) (k i : Nat) (w : List Nat)
    (hk : k ≤ w.length) (hnd : w.Nodup) : (fyPick r i w k).Nodup := by
  obtain ⟨rest, hp⟩ := fyPick_append_perm r k i w hk
  exact List.Nodup.of_append_left (hp.nodup_iff.mpr hnd)

/-- `_selectRandomJurors` returns `min(poolSize, maxPerDispute)` jurors. -/
theorem selectRandomJurors_length (r : Nat → Nat) (maxJ : Nat)
    (pool : List Nat) :
    (selectRandomJurors r maxJ pool).length = min pool.length maxJ :=
  fyPick_length r (min pool.length maxJ) 0 pool (Nat.min_le_left _ _)

/-- `_selectRandomJurors` never selects the same juror twice when the pool
has no duplicates. -/
theorem selectRandomJurors_nodup (r : Nat → Nat) (maxJ : Nat)
    (pool : List Nat) (hnd : pool.Nodup) :
    (selectRandomJurors r maxJ pool).Nodup :=
  fyPick_nodup r (min pool.length maxJ) 0 pool (Nat.min_le_left _ _) hnd

/-- C8: whenever `createDispute` succeeds, the case's assigned juror list
is duplicate-free (given a duplicate-free active pool, which registration
guarantees) and has exactly `min(maxPerDispute, poolSize)` members. -/
theorem c8_dispute_jurors_distinct (p : DParams) (r : Nat → Nat)
    (escrowId caller buyer seller : Nat) (ev : String) (now : Nat)
    (st : DCState) (hnd : st.activeJurors.Nodup) (st' : DCState)
    (h : createDispute p r escrowId caller buyer seller ev now st
      = some st') :
    st'.dispute.jurors.Nodup ∧
      st'.dispute.jurors.length
        = min p.maxJurorsPerDispute st.activeJurors.length := by
  simp only [createDispute] at h
  repeat' split at h
  all_goals first
    | exact Option.noConfusion h
    | (injection h with h2; subst h2;
       exact ⟨selectRandomJurors_nodup _ _ _ hnd,
         by rw [selectRandomJurors_length]; exact Nat.min_comm _ _⟩)

/-- A juror registry in which every address holds a 2000-token stake. -/
def sampleJurors : Nat → Juror :=
  fun _ => { stake := 2000, reputation := 100, isActive := true,
             lastActive := 0 }

/-- The zero-initialised dispute slot before any case is opened. -/
def emptyDispute : Dispute :=
  { escrowId := 0, buyer := 0, seller := 0, jurors := [],
    status := DStatus.pending, createdAt := 0, resolvedAt := 0,
    evidenceHash := "", votes := [], buyerVotes := 0, sellerVotes := 0,
    totalStake := 0, hasVoted := fun _ => false, voteHashes := fun _ => 0 }

/-- A dispute-contract state with a five-juror active pool. -/
def samplePoolState : DCState :=
  { dispute := emptyDispute, jurors := sampleJurors,
    activeJurors := [11, 12, 13, 14, 15], contractBalance := 10000,
    payments := [], escrowCalls := [] }

/-- Dispute parameters: owner 1, linked escrow contract 6, and the
contract's default pool bounds and periods (scaled down). -/
def sampleDParams : DParams :=
  { owner := 1, escrowContract := 6, minJurorStake := 1000,
    maxJurorsPerDispute := 5, minJurorsPerDispute := 3,
    disputeTimeout := 700, votingPeriod := 300, revealPeriod := 100,
    rewardPoolPercentage := 1000 }

/-- The state after opening a dispute on the five-juror pool. -/
def c8Opened : DCState :=
  (createDispute sampleDParams (fun i => i + 2) 1 6 1 2 "e" 0
    samplePoolState).getD samplePoolState

/-- Witness for C8: opening a dispute on the concrete five-juror pool
yields five pairwise distinct assigned jurors. -/
theorem c8_dispute_jurors_distinct_witness :
    c8Opened.dispute.jurors.Nodup ∧
      c8Opened.dispute.jurors.length
        = min sampleDParams.maxJurorsPerDispute
            samplePoolState.activeJurors.length :=
  c8_dispute_jurors_distinct sampleDParams (fun i => i + 2) 1 6 1 2 "e" 0
    samplePoolState (by decide) c8Opened rfl

/-- C9: with an active pool below `minJurorsPerDispute`, every
dispute-open call reverts with no state change, whoever the caller is;
and an unregistration removes exactly one juror from the pool, which is
how such a state arises. -/
theorem c9_insufficient_jurors (p : DParams) (r : Nat → Nat)
    (escrowId caller buyer seller : Nat) (ev : String) (now : Nat)
    (st : DCState)
    (hlt : st.activeJurors.length < p.minJurorsPerDispute) :
    createDispute p r escrowId caller buyer seller ev now st = none ∧
    (∀ (st2 : DCState) (sender : Nat) (st2' : DCState),
      st2.activeJurors.contains sender = true →
      unregisterJuror p sender st2 = some st2' →
      st2'.activeJurors.length = st2.activeJurors.length - 1) := by
  constructor
  · simp only [createDispute]
    repeat' split
    all_goals first
      | rfl
      | (exfalso; omega)
  · intro st2 sender st2' hmem h
    simp only [unregisterJuror] at h
    split at h
    · exact Option.noConfusion h
    · injection h with h2
      subst h2
      have hmem2 : sender ∈ st2.activeJurors := by
        simpa using hmem
      simp [swapRemove, hmem2]

/-- A pool of only two jurors, one short of the three-juror minimum. -/
def smallPoolState : DCState :=
  { samplePoolState with activeJurors := [11, 12] }

/-- The state after juror 11 unregisters from the two-juror pool. -/
def smallPoolAfterUnreg : DCState :=
  (unregisterJuror sampleDParams 11 smallPoolState).getD smallPoolState

/-- Witness for C9: the two-juror pool rejects a dispute-open call, and
an unregistration shrinks a pool by exactly one. -/
theorem c9_insufficient_jurors_witness :
    createDispute sampleDParams (fun i => i) 1 6 1 2 "e" 0 smallPoolState
        = none ∧
      smallPoolAfterUnreg.activeJurors.length
        = smallPoolState.activeJurors.length - 1 :=
  ⟨(c9_insufficient_jurors sampleDParams (fun i => i) 1 6 1 2 "e" 0
      smallPoolState (by decide)).1,
   (c9_insufficient_jurors sampleDParams (fun i => i) 1 6 1 2 "e" 0
      smallPoolState (by decide)).2 smallPoolState 11 smallPoolAfterUnreg
      (by decide) rfl⟩

/-! Lemmas about one iteration of the reward/penalty loop. -/

/-- One loop iteration does not touch registry entries of other
addresses. -/
theorem rewardStep_jurors_ne (b s w R n : Nat) (st : DCState)
    (jv : Nat × Vote) (a : Nat) (ha : a ≠ jv.1) :
    (rewardStep b s w R n st jv).jurors a = st.jurors a := by
  simp only [rewardStep]
  split
  · split
    · simp [fupd, ha]
    · simp [fupd, ha]
  · simp [fupd, ha]

/-- One loop iteration never changes any juror's staked amount. -/
theorem rewardStep_stake (b s w R n : Nat) (st : DCState)
    (jv : Nat × Vote) (a : Nat) :
    ((rewardStep b s w R n st jv).jurors a).stake
      = (st.jurors a).stake := by
  by_cases ha : a = jv.1
  · subst ha
    simp only [rewardStep]
    split
    · split
      · simp [fupd]
      · simp [fupd]
    · simp [fupd]
  · rw [rewardStep_jurors_ne b s w R n st jv a ha]

/-- One loop iteration leaves the dispute record unchanged. -/
theorem rewardStep_dispute (b s w R n : Nat) (st : DCState)
    (jv : Nat × Vote) :
    (rewardStep b s w R n st jv).dispute = st.dispute := by
  simp only [rewardStep]
  split
  · split
    · rfl
    · rfl
  · rfl

/-- One loop iteration leaves the escrow-callback log unchanged. -/
theorem rewardStep_escrowCalls (b s w R n : Nat) (st : DCState)
    (jv : Nat × Vote) :
    (rewardStep b s w R n st jv).escrowCalls = st.escrowCalls := by
  simp only [rewardStep]
  split
  · split
    · rfl
    · rfl
  · rfl

/-- One loop iteration only appends to the transfer log. -/
theorem rewardStep_payments_mono (b s w R n : Nat) (st : DCState)
    (jv : Nat × Vote) (x : Nat × Nat) (hx : x ∈ st.payments) :
    x ∈ (rewardStep b s w R n st jv).payments := by
  simp only [rewardStep]
  split
  · split
    · exact List.mem_append_left _ hx
    · exact hx
  · exact hx

/-- Balance after a rewarded iteration. -/
theorem rewardStep_balance_correct (b s w R n : Nat) (st : DCState)
    (jv : Nat × Vote) (hc : votedCorrectly b s w jv.2 = true) (hR : 0 < R)
    (hbal : R ≤ st.contractBalance) :
    (rewardStep b s w R n st jv).contractBalance
      = st.contractBalance - R := by
  simp [rewardStep, hc, hR, hbal]

/-- Balance after a penalising iteration. -/
theorem rewardStep_balance_wrong (b s w R n : Nat) (st : DCState)
    (jv : Nat × Vote) (hc : votedCorrectly b s w jv.2 = false) :
    (rewardStep b s w R n st jv).contractBalance
      = st.contractBalance := by
  simp [rewardStep, hc]

/-- A correct voter's own iteration rewards them: plus 10 reputation and a
logged transfer of `R`. -/
theorem rewardStep_self_correct (b s w R n : Nat) (st : DCState)
    (jv : Nat × Vote) (hc : votedCorrectly b s w jv.2 = true) (hR : 0 < R)
    (hbal : R ≤ st.contractBalance) :
    ((rewardStep b s w R n st jv).jurors jv.1).reputation
        = (st.jurors jv.1).reputation + 10 ∧
      (jv.1, R) ∈ (rewardStep b s w R n st jv).payments := by
  constructor
  · simp [rewardStep, hc, hR, hbal, fupd]
  · simp [rewardStep, hc, hR, hbal]

/-- An incorrect or non-revealing voter's own iteration applies the
reputation penalty. -/
theorem rewardStep_self_wrong (b s w R n : Nat) (st : DCState)
    (jv : Nat × Vote) (hc : votedCorrectly b s w jv.2 = false) :
    ((rewardStep b s w R n st jv).jurors jv.1).reputation
      = penaltyRep ((st.jurors jv.1).reputation) := by
  simp [rewardStep, hc, fupd]

/-! Lemmas about the whole reward/penalty loop (a left fold). -/

/-- The loop never touches a registry entry whose address is not in the
processed list. -/
theorem foldl_rewardStep_not_mem (b s w R n : Nat) :
    ∀ (l : List (Nat × Vote)) (st : DCState) (j : Nat),
      j ∉ l.map Prod.fst →
      (l.foldl (rewardStep b s w R n) st).jurors j = st.jurors j := by
  intro l
  induction l with
  | nil =>
    intro st j _
    rfl
  | cons hd tl ih =>
    intro st j hj
    rw [List.foldl_cons, ih _ j (fun hmem => hj (List.mem_map.mpr
      (by obtain ⟨x, hx, he⟩ := List.mem_map.mp hmem; exact ⟨x, .tail _ hx, he⟩))),
      rewardStep_jurors_ne b s w R n st hd j
        (fun he => hj (he ▸ List.mem_map_of_mem Prod.fst (List.mem_cons_self hd tl)))]

/-- The loop never changes any staked amount. -/
theorem foldl_rewardStep_stake (b s w R n : Nat) :
    ∀ (l : List (Nat × Vote)) (st : DCState) (a : Nat),
      ((l.foldl (rewardStep b s w R n) st).jurors a).stake
        = (st.jurors a).stake := by
  intro l
  induction l with
  | nil =>
    intro st a
    rfl
  | cons hd tl ih =>
    intro st a
    rw [List.foldl_cons, ih _ a, rewardStep_stake]

/-- The loop leaves the dispute record unchanged. -/
theorem foldl_rewardStep_dispute (b s w R n : Nat) :
    ∀ (l : List (Nat × Vote)) (st : DCState),
      (l.foldl (rewardStep b s w R n) st).dispute = st.dispute := by
  intro l
  induction l with
  | nil =>
    intro st
    rfl
  | cons hd tl ih =>
    intro st
    rw [List.foldl_cons, ih _, rewardStep_dispute]

/-- The loop leaves the escrow-callback log unchanged. -/
theorem foldl_rewardStep_escrowCalls (b s w R n : Nat) :
    ∀ (l : List (Nat × Vote)) (st : DCState),
      (l.foldl (rewardStep b s w R n) st).escrowCalls = st.escrowCalls := by
  intro l
  induction l with
  | nil =>
    intro st
    rfl
  | cons hd tl ih =>
    intro st
    rw [List.foldl_cons, ih _, rewardStep_escrowCalls]

/-- The loop only appends to the transfer log. -/
theorem foldl_rewardStep_payments_mono (b s w R n : Nat) :
    ∀ (l : List (Nat × Vote)) (st : DCState) (x : Nat × Nat),
      x ∈ st.payments →
      x ∈ (l.foldl (rewardStep b s w R n) st).payments := by
  intro l
  induction l with
  | nil =>
    intro st x hx
    exact hx
  | cons hd tl ih =>
    intro st x hx
    exact ih _ x (rewardStep_payments_mono b s w R n st hd x hx)

/-- Over the whole loop, an assigned juror whose recorded vote does not
match the winner ends with the penalised reputation, provided no other
processed entry shares their address. -/
theorem foldl_rewardStep_penalty (b s w R n : Nat) :
    ∀ (l : List (Nat × Vote)) (st : DCState) (j : Nat) (v : Vote),
      (l.map Prod.fst).Nodup → (j, v) ∈ l →
      votedCorrectly b s w v = false →
      ((l.foldl (rewardStep b s w R n) st).jurors j).reputation
        = penaltyRep ((st.jurors j).reputation) := by
  intro l
  induction l with
  | nil =>
    intro st j v _ hmem _
    simp at hmem
  | cons hd tl ih =>
    intro st j v hnd hmem hwrong
    rw [List.map_cons] at hnd
    have hnd1 := (List.nodup_cons.mp hnd).1
    have hnd2 := (List.nodup_cons.mp hnd).2
    rcases List.mem_cons.mp hmem with heq | htl
    · subst heq
      rw [List.foldl_cons, foldl_rewardStep_not_mem b s w R n tl _ j hnd1,
        rewardStep_self_wrong b s w R n st (j, v) hwrong]
    · have hj : j ∈ tl.map Prod.fst := List.mem_map_of_mem Prod.fst htl
      have hne : hd.1 ≠ j := by
        intro he
        exact hnd1 (he ▸ hj)
      rw [List.foldl_cons, ih _ j v hnd2 htl hwrong,
        rewardStep_jurors_ne b s w R n st hd j (fun he => hne he.symm)]

/-- Over the whole loop, an assigned juror whose recorded vote matches the
winner gains 10 reputation and a logged transfer of `rewardPerJuror`,
provided the balance covers one reward per correct voter (the contract
holds every juror's stake, which dominates the whole reward pool). -/
theorem foldl_rewardStep_reward (b s w R n : Nat) :
    ∀ (l : List (Nat × Vote)) (st : DCState) (j : Nat) (v : Vote),
      (l.map Prod.fst).Nodup → (j, v) ∈ l →
      votedCorrectly b s w v = true → 0 < R →
      R * l.countP (fun jv => votedCorrectly b s w jv.2)
          ≤ st.contractBalance →
      ((l.foldl (rewardStep b s w R n) st).jurors j).reputation
          = (st.jurors j).reputation + 10 ∧
        (j, R) ∈ (l.foldl (rewardStep b s w R n) st).payments := by
  intro l
  induction l with
  | nil =>
    intro st j v _ hmem _ _ _
    simp at hmem
  | cons hd tl ih =>
    intro st j v hnd hmem hc hR hbal
    rw [List.map_cons] at hnd
    have hnd1 := (List.nodup_cons.mp hnd).1
    have hnd2 := (List.nodup_cons.mp hnd).2
    rcases List.mem_cons.mp hmem with heq | htl
    · subst heq
      have hcnt : ((j, v) :: tl).countP
            (fun jv => votedCorrectly b s w jv.2)
          = tl.countP (fun jv => votedCorrectly b s w jv.2) + 1 := by
        simp [List.countP_cons, hc]
      rw [hcnt, Nat.mul_succ] at hbal
      have hRle : R ≤ st.contractBalance := by omega
      rw [List.foldl_cons]
      constructor
      · rw [foldl_rewardStep_not_mem b s w R n tl _ j hnd1,
          (rewardStep_self_correct b s w R n st (j, v) hc hR hRle).1]
      · exact foldl_rewardStep_payments_mono b s w R n tl _ (j, R)
          (rewardStep_self_correct b s w R n st (j, v) hc hR hRle).2
    · have hj : j ∈ tl.map Prod.fst := List.mem_map_of_mem Prod.fst htl
      have hne : hd.1 ≠ j := fun he => hnd1 (he ▸ hj)
      rw [List.foldl_cons]
      by_cases hhd : votedCorrectly b s w hd.2 = true
      · have hcnt : ((hd :: tl).countP
              (fun jv => votedCorrectly b s w jv.2))
            = tl.countP (fun jv => votedCorrectly b s w jv.2) + 1 := by
          simp [List.countP_cons, hhd]
        rw [hcnt, Nat.mul_succ] at hbal
        have hRle : R ≤ st.contractBalance := by omega
        have hbal2 : R * tl.countP (fun jv => votedCorrectly b s w jv.2)
            ≤ (rewardStep b s w R n st hd).contractBalance := by
          rw [rewardStep_balance_correct b s w R n st hd hhd hR hRle]
          omega
        have hih := ih (rewardStep b s w R n st hd) j v hnd2 htl hc hR hbal2
        rw [rewardStep_jurors_ne b s w R n st hd j
          (fun he => hne he.symm)] at hih
        exact hih
      · rw [Bool.not_eq_true] at hhd
        have hcnt : ((hd :: tl).countP
              (fun jv => votedCorrectly b s w jv.2))
            = tl.countP (fun jv => votedCorrectly b s w jv.2) := by
          simp [List.countP_cons, hhd]
        rw [hcnt] at hbal
        have hbal2 : R * tl.countP (fun jv => votedCorrectly b s w jv.2)
            ≤ (rewardStep b s w R n st hd).contractBalance := by
          rw [rewardStep_balance_wrong b s w R n st hd hhd]
          exact hbal
        have hih := ih (rewardStep b s w R n st hd) j v hnd2 htl hc hR hbal2
        rw [rewardStep_jurors_ne b s w R n st hd j
          (fun he => hne he.symm)] at hih
        exact hih

/-- When the escrow callback is not reached or succeeds, reward
distribution always succeeds. -/
theorem distributeRewards_isSome (p : DParams) (now : Nat) (escrowOk : Bool)
    (winner : Nat) (st : DCState)
    (hok : p.escrowContract ≠ 0 → escrowOk = true) :
    (distributeRewards p now escrowOk winner st).isSome = true := by
  by_cases h0 : p.escrowContract ≠ 0
  · have he := hok h0
    subst he
    simp [distributeRewards, h0]
  · simp [distributeRewards, h0]

/-- When the escrow callback succeeds, resolution always succeeds. -/
theorem resolveDisputeInternal_isSome (p : DParams) (now : Nat)
    (st : DCState) :
    (resolveDisputeInternal p now true st).isSome = true := by
  simp only [resolveDisputeInternal]
  exact distributeRewards_isSome p now true _ _ (fun _ => rfl)

set_option maxHeartbeats 1000000 in
/-- C5: when the escrow contract is linked and its `resolveDispute`
callback fails, the whole resolution reverts (`none`): the case is not
marked Resolved, no reward transfer or reputation change is kept, and the
caller's state — still InProgress — is unchanged, so resolution can be
retried.  A reveal that does not trigger resolution leaves the case
InProgress. -/
theorem c5_escrow_callback_failure_aborts (p : DParams) (now : Nat)
    (st : DCState) (hlink : p.escrowContract ≠ 0) :
    resolveDisputeInternal p now false st = none ∧
    resolveDisputeTimeout p now false st = none ∧
    (∀ (hashFn : Vote → Nat → Nat) (sender : Nat) (vote : Vote)
        (nonce : Nat),
      revealVote p hashFn now sender vote nonce false st = none ∨
      ∃ st', revealVote p hashFn now sender vote nonce false st = some st' ∧
        st'.dispute.status = DStatus.inProgress) := by
  have hint : ∀ st2 : DCState,
      resolveDisputeInternal p now false st2 = none := by
    intro st2
    simp [resolveDisputeInternal, distributeRewards, hlink]
  refine ⟨hint st, ?_, ?_⟩
  · simp only [resolveDisputeTimeout]
    split
    · rfl
    · split
      · rfl
      · exact hint st
  · intro hashFn sender vote nonce
    cases hres : revealVote p hashFn now sender vote nonce false st with
    | none => exact Or.inl rfl
    | some st1 =>
      refine Or.inr ⟨st1, rfl, ?_⟩
      simp only [revealVote] at hres
      repeat' split at hres
      all_goals first
        | exact Option.noConfusion hres
        | (injection hres with h2; subst h2; simp_all)
        | (rw [hint _] at hres; exact Option.noConfusion hres)

/-- Witness for C5: with the linked escrow callback failing, both the
internal resolution and the timeout entry point revert on a concrete
state. -/
theorem c5_escrow_callback_failure_aborts_witness :
    resolveDisputeInternal sampleDParams 800 false samplePoolState = none ∧
    resolveDisputeTimeout sampleDParams 800 false samplePoolState = none :=
  ⟨(c5_escrow_callback_failure_aborts sampleDParams 800 samplePoolState
      (by decide)).1,
   (c5_escrow_callback_failure_aborts sampleDParams 800 samplePoolState
      (by decide)).2.1⟩

/-- C3: resolving a dispute reports to the escrow contract the winner
computed as: buyer on strictly more buyer votes, seller on strictly more
seller votes, and buyer on a tie. -/
theorem c3_resolution_winner_rule (p : DParams) (now : Nat) (st : DCState)
    (hstat : st.dispute.status = DStatus.inProgress)
    (htime : st.dispute.createdAt + p.disputeTimeout < now)
    (hlink : p.escrowContract ≠ 0) :
    ∃ st', resolveDisputeTimeout p now true st = some st' ∧
      st'.escrowCalls = st.escrowCalls ++ [(st.dispute.escrowId,
        if st.dispute.sellerVotes < st.dispute.buyerVotes then
          st.dispute.buyer
        else if st.dispute.buyerVotes < st.dispute.sellerVotes then
          st.dispute.seller
        else st.dispute.buyer)] := by
  have h1 : resolveDisputeTimeout p now true st
      = resolveDisputeInternal p now true st := by
    simp [resolveDisputeTimeout, hstat, htime]
  rw [h1]
  simp only [resolveDisputeInternal, distributeRewards]
  rw [if_pos hlink, if_true]
  refine ⟨_, rfl, ?_⟩
  show (if _ then _ else _ : DCState).escrowCalls ++ _ = _
  split
  · rw [foldl_rewardStep_escrowCalls]
    simp [disputeWinner]
  · simp [disputeWinner]

/-- A fully revealed dispute: jurors 11 and 12 voted Buyer, juror 13 voted
Seller. -/
def c3Dispute : Dispute :=
  { escrowId := 7, buyer := 1, seller := 2, jurors := [11, 12, 13],
    status := DStatus.inProgress, createdAt := 0, resolvedAt := 0,
    evidenceHash := "e", votes := [Vote.buyer, Vote.buyer, Vote.seller],
    buyerVotes := 2, sellerVotes := 1, totalStake := 6000,
    hasVoted := fun _ => true, voteHashes := fun _ => 5 }

/-- State holding `c3Dispute` over the three-juror registry. -/
def c3State : DCState :=
  { dispute := c3Dispute, jurors := sampleJurors,
    activeJurors := [11, 12, 13], contractBalance := 10000,
    payments := [], escrowCalls := [] }

/-- Witness for C3: with two Buyer votes against one Seller vote, timeout
resolution reports the buyer (address 1) as winner for escrow 7. -/
theorem c3_resolution_winner_rule_witness :
    ∃ st', resolveDisputeTimeout sampleDParams 800 true c3State = some st' ∧
      st'.escrowCalls = c3State.escrowCalls ++ [(c3State.dispute.escrowId,
        if c3State.dispute.sellerVotes < c3State.dispute.buyerVotes then
          c3State.dispute.buyer
        else if c3State.dispute.buyerVotes < c3State.dispute.sellerVotes then
          c3State.dispute.seller
        else c3State.dispute.buyer)] :=
  c3_resolution_winner_rule sampleDParams 800 c3State (by decide) (by decide)
    (by decide)

/-- C2: for an assigned juror who committed and has not yet revealed, a
reveal inside the reveal window succeeds exactly when the submitted
(vote, nonce) pair hashes to the stored commit; with a different hash the
call reverts (`none`), leaving the state unchanged.  The external escrow
callback that a final reveal may trigger is assumed to succeed. -/
theorem c2_reveal_iff_hash_matches (p : DParams)
    (hashFn : Vote → Nat → Nat) (now sender : Nat) (vote : Vote)
    (nonce : Nat) (st : DCState)
    (h1 : st.dispute.status = DStatus.inProgress)
    (h2 : st.dispute.createdAt + p.votingPeriod < now)
    (h3 : now ≤ st.dispute.createdAt + p.votingPeriod + p.revealPeriod)
    (h4 : st.dispute.jurors.contains sender = true)
    (h5 : st.dispute.hasVoted sender = true)
    (h6 : st.dispute.votes.getD (st.dispute.jurors.indexOf sender) Vote.none
      = Vote.none) :
    (revealVote p hashFn now sender vote nonce true st).isSome = true ↔
      hashFn vote nonce = st.dispute.voteHashes sender := by
  constructor
  · intro hsome
    by_contra hne
    have hne2 : st.dispute.voteHashes sender ≠ hashFn vote nonce :=
      fun he => hne he.symm
    simp [revealVote, h1, h2, h3, h4, h5, h6, hne2] at hsome
  · intro heq
    simp only [revealVote]
    rw [if_neg (by simp [h1]), if_neg (not_not_intro h2),
      if_neg (not_not_intro h3), if_neg (not_not_intro h4),
      if_neg (by simp [h5]), if_neg (not_not_intro h6),
      if_neg (not_not_intro heq.symm)]
    split
    · rfl
    · exact resolveDisputeInternal_isSome p now _

/-- A concrete stand-in for the keccak commitment hash. -/
def sampleHashFn : Vote → Nat → Nat :=
  fun v n =>
    (match v with
     | Vote.none => 0
     | Vote.buyer => 1
     | Vote.seller => 2) * 1000000 + n

/-- A dispute in which juror 11 committed to (Buyer, 42) and nobody has
revealed yet. -/
def c2Dispute : Dispute :=
  { escrowId := 7, buyer := 1, seller := 2, jurors := [11, 12, 13],
    status := DStatus.inProgress, createdAt := 0, resolvedAt := 0,
    evidenceHash := "e", votes := [Vote.none, Vote.none, Vote.none],
    buyerVotes := 0, sellerVotes := 0, totalStake := 6000,
    hasVoted := fun a => a == 11,
    voteHashes := fun a => if a = 11 then sampleHashFn Vote.buyer 42 else 0 }

/-- State holding `c2Dispute`. -/
def c2State : DCState :=
  { dispute := c2Dispute, jurors := sampleJurors,
    activeJurors := [11, 12, 13], contractBalance := 10000,
    payments := [], escrowCalls := [] }

/-- Witness for C2 at a concrete commit: juror 11's reveal succeeds
exactly when (vote, nonce) hashes to the stored commit, and the matching
pair (Buyer, 42) does succeed while a wrong nonce fails. -/
theorem c2_reveal_iff_hash_matches_witness :
    ((revealVote sampleDParams sampleHashFn 350 11 Vote.buyer 42 true
        c2State).isSome = true ↔
      sampleHashFn Vote.buyer 42 = c2Dispute.voteHashes 11) ∧
    ((revealVote sampleDParams sampleHashFn 350 11 Vote.buyer 43 true
        c2State).isSome = true ↔
      sampleHashFn Vote.buyer 43 = c2Dispute.voteHashes 11) :=
  ⟨c2_reveal_iff_hash_matches sampleDParams sampleHashFn 350 11 Vote.buyer
      42 c2State (by decide) (by decide) (by decide) (by decide) (by decide)
      (by decide),
   c2_reveal_iff_hash_matches sampleDParams sampleHashFn 350 11 Vote.buyer
      43 c2State (by decide) (by decide) (by decide) (by decide) (by decide)
      (by decide)⟩

/-- A dispute in which no juror ever revealed: zero votes on both sides. -/
def c6Dispute : Dispute :=
  { escrowId := 7, buyer := 1, seller := 2, jurors := [11, 12, 13],
    status := DStatus.inProgress, createdAt := 0, resolvedAt := 0,
    evidenceHash := "e", votes := [Vote.none, Vote.none, Vote.none],
    buyerVotes := 0, sellerVotes := 0, totalStake := 6000,
    hasVoted := fun _ => false, voteHashes := fun _ => 0 }

/-- State holding `c6Dispute`. -/
def c6State : DCState :=
  { dispute := c6Dispute, jurors := sampleJurors,
    activeJurors := [11, 12, 13], contractBalance := 10000,
    payments := [], escrowCalls := [] }

/-- Counterexample to C6 as stated: resolving a dispute in which no juror
revealed (a 0-0 tie, winner defaults to buyer, zero correct voters) keeps
every juror's reputation unchanged at 100 — the whole reward/penalty loop
is skipped because it only runs when `correctVoters > 0` — although the
claim demands that each non-revealing juror drop to 90. -/
theorem c6_unpenalized_nonrevealer_counterexample :
    (resolveDisputeTimeout sampleDParams 800 true c6State).map
        (fun st' => ((st'.jurors 11).reputation, st'.dispute.status,
          st'.payments.length))
      = some (100, DStatus.resolved, 0) ∧
    (c6State.jurors 11).reputation = 100 ∧
    c6Dispute.votes = [Vote.none, Vote.none, Vote.none] := by
  decide

/-- C6 amended: when a dispute is resolved and the reward/penalty loop
actually runs — at least one juror voted for the winner and the reward
pool is positive — every assigned juror whose recorded vote differs from
the winner's side (including the never-revealed `Vote.none`) has their
reputation decreased by the fixed penalty of 10, floored at zero; and no
juror's staked amount changes in any resolution. -/
theorem c6_incorrect_juror_penalty_amended (p : DParams) (now : Nat)
    (escrowOk : Bool) (st : DCState) (j : Nat) (v : Vote)
    (hnd : st.dispute.jurors.Nodup)
    (hlen : st.dispute.jurors.length ≤ st.dispute.votes.length)
    (hmem : (j, v) ∈ st.dispute.jurors.zip st.dispute.votes)
    (hwrong : votedCorrectly st.dispute.buyer st.dispute.seller
      (disputeWinner st.dispute) v = false)
    (hcv : 0 < countCorrect st.dispute (disputeWinner st.dispute))
    (hpool : 0 < st.dispute.totalStake * p.rewardPoolPercentage / 10000)
    (hok : p.escrowContract ≠ 0 → escrowOk = true) :
    ∃ st', resolveDisputeInternal p now escrowOk st = some st' ∧
      (st'.jurors j).reputation = penaltyRep ((st.jurors j).reputation) ∧
      (∀ a, (st'.jurors a).stake = (st.jurors a).stake) := by
  have hndz : ((st.dispute.jurors.zip st.dispute.votes).map
      Prod.fst).Nodup := by
    rw [List.map_fst_zip _ _ hlen]
    exact hnd
  simp only [resolveDisputeInternal, distributeRewards]
  split
  · rename_i hlnk
    rw [if_pos (hok hlnk)]
    refine ⟨_, rfl, ?_, ?_⟩
    · split
      · exact foldl_rewardStep_penalty _ _ _ _ _ _ _ j v hndz hmem hwrong
      · rename_i hguard
        exact absurd (And.intro hcv hpool) hguard
    · intro a
      split
      · exact foldl_rewardStep_stake _ _ _ _ _ _ _ a
      · rfl
  · refine ⟨_, rfl, ?_, ?_⟩
    · split
      · exact foldl_rewardStep_penalty _ _ _ _ _ _ _ j v hndz hmem hwrong
      · rename_i hguard
        exact absurd (And.intro hcv hpool) hguard
    · intro a
      split
      · exact foldl_rewardStep_stake _ _ _ _ _ _ _ a
      · rfl

/-- Witness for the amended C6: juror 13 voted Seller while the buyer won
2-1, so resolution drops juror 13's reputation from 100 to 90. -/
theorem c6_incorrect_juror_penalty_amended_witness :
    ∃ st', resolveDisputeInternal sampleDParams 800 true c3State
        = some st' ∧
      (st'.jurors 13).reputation
        = penaltyRep ((c3State.jurors 13).reputation) := by
  obtain ⟨st', h1, h2, h3⟩ :=
    c6_incorrect_juror_penalty_amended sampleDParams 800 true c3State 13
      Vote.seller (by decide) (by decide) (by decide) (by decide)
      (by decide) (by decide) (fun _ => rfl)
  exact ⟨st', h1, h2⟩

/-- Resolution never changes the recorded vote counters. -/
theorem resolveDisputeInternal_buyerVotes (p : DParams) (now : Nat)
    (escrowOk : Bool) (st : DCState) :
    ∀ st', resolveDisputeInternal p now escrowOk st = some st' →
      st'.dispute.buyerVotes = st.dispute.buyerVotes := by
  intro st' h
  simp only [resolveDisputeInternal, distributeRewards] at h
  repeat' split at h
  all_goals first
    | exact Option.noConfusion h
    | (injection h with h2; subst h2; simp [foldl_rewardStep_dispute])

/-- Vote counting ignores the case's status and resolution time. -/
theorem countCorrect_update (d : Dispute) (stt : DStatus) (ra : Nat)
    (w : Nat) :
    countCorrect { d with status := stt, resolvedAt := ra } w
      = countCorrect d w := rfl

/-- C10: participation in a dispute is governed solely by the juror list
snapshotted when the case was opened.  Unregistering does not change any
dispute case; and a juror whose registry record is inactive (for example
after unregistering) can still commit, still reveal and be counted, and is
still rewarded at resolution, because `castVote`, `revealVote` and
`_distributeRewards` never consult the active flag. -/
theorem c10_unregistered_juror_still_participates (p : DParams)
    (st : DCState) :
    (∀ sender st', unregisterJuror p sender st = some st' →
        st'.dispute = st.dispute) ∧
    (∀ now sender voteHash,
        (st.jurors sender).isActive = false →
        st.dispute.status = DStatus.inProgress →
        now ≤ st.dispute.createdAt + p.votingPeriod →
        st.dispute.jurors.contains sender = true →
        st.dispute.hasVoted sender = false →
        voteHash ≠ 0 →
        (castVote p now sender voteHash st).isSome = true) ∧
    (∀ (hashFn : Vote → Nat → Nat) (now sender nonce : Nat),
        (st.jurors sender).isActive = false →
        st.dispute.status = DStatus.inProgress →
        st.dispute.createdAt + p.votingPeriod < now →
        now ≤ st.dispute.createdAt + p.votingPeriod + p.revealPeriod →
        st.dispute.jurors.contains sender = true →
        st.dispute.hasVoted sender = true →
        st.dispute.votes.getD (st.dispute.jurors.indexOf sender) Vote.none
          = Vote.none →
        st.dispute.voteHashes sender = hashFn Vote.buyer nonce →
        ∃ st', revealVote p hashFn now sender Vote.buyer nonce true st
            = some st' ∧
          st'.dispute.buyerVotes = st.dispute.buyerVotes + 1) ∧
    (∀ (now j : Nat),
        (st.jurors j).isActive = false →
        st.dispute.jurors.Nodup →
        st.dispute.jurors.length ≤ st.dispute.votes.length →
        (j, Vote.buyer) ∈ st.dispute.jurors.zip st.dispute.votes →
        disputeWinner st.dispute = st.dispute.buyer →
        0 < st.dispute.totalStake * p.rewardPoolPercentage / 10000 /
          countCorrect st.dispute (disputeWinner st.dispute) →
        (st.dispute.totalStake * p.rewardPoolPercentage / 10000 /
            countCorrect st.dispute (disputeWinner st.dispute))
            * countCorrect st.dispute (disputeWinner st.dispute)
          ≤ st.contractBalance →
        ∃ st', resolveDisputeInternal p now true st = some st' ∧
          (st'.jurors j).reputation = (st.jurors j).reputation + 10 ∧
          (j, st.dispute.totalStake * p.rewardPoolPercentage / 10000 /
            countCorrect st.dispute (disputeWinner st.dispute))
            ∈ st'.payments) := by
  refine ⟨?_, ?_, ?_, ?_⟩
  · intro sender st' h
    simp only [unregisterJuror] at h
    split at h
    · exact Option.noConfusion h
    · injection h with h2
      subst h2
      rfl
  · intro now sender voteHash hinact hstat hwin hmem hnv hh
    have hmem2 : sender ∈ st.dispute.jurors := by
      simpa using hmem
    simp [castVote, hstat, hwin, hmem2, hnv, hh]
  · intro hashFn now sender nonce hinact h1 h2 h3 h4 h5 h6 h7
    have hsome : (revealVote p hashFn now sender Vote.buyer nonce true
        st).isSome = true := by
      simp only [revealVote]
      rw [if_neg (by simp [h1]), if_neg (not_not_intro h2),
        if_neg (not_not_intro h3), if_neg (not_not_intro h4),
        if_neg (by simp [h5]), if_neg (not_not_intro h6),
        if_neg (not_not_intro h7)]
      split
      · rfl
      · exact resolveDisputeInternal_isSome p now _
    obtain ⟨st2, hst2⟩ := Option.isSome_iff_exists.mp hsome
    refine ⟨st2, hst2, ?_⟩
    simp only [revealVote] at hst2
    rw [if_neg (by simp [h1]), if_neg (not_not_intro h2),
      if_neg (not_not_intro h3), if_neg (not_not_intro h4),
      if_neg (by simp [h5]), if_neg (not_not_intro h6),
      if_neg (not_not_intro h7)] at hst2
    split at hst2
    · injection hst2 with h9
      subst h9
      simp
    · rw [resolveDisputeInternal_buyerVotes p now true _ st2 hst2]
      simp
  · intro now j hinact hnd hlen hmem hwin hR hbal
    have hndz : ((st.dispute.jurors.zip st.dispute.votes).map
        Prod.fst).Nodup := by
      rw [List.map_fst_zip _ _ hlen]
      exact hnd
    have hcorrect : votedCorrectly st.dispute.buyer st.dispute.seller
        (disputeWinner st.dispute) Vote.buyer = true := by
      simp [votedCorrectly, hwin]
    have hcv : 0 < countCorrect st.dispute (disputeWinner st.dispute) := by
      by_contra hc0
      rw [Nat.le_zero.mp (Nat.not_lt.mp hc0), Nat.div_zero] at hR
      exact absurd hR (by simp)
    have hpool : 0 < st.dispute.totalStake * p.rewardPoolPercentage
        / 10000 := by
      by_contra hp0
      rw [Nat.le_zero.mp (Nat.not_lt.mp hp0), Nat.zero_div] at hR
      exact absurd hR (by simp)
    simp only [resolveDisputeInternal, distributeRewards]
    rw [countCorrect_update]
    split
    · rw [if_true]
      refine ⟨_, rfl, ?_, ?_⟩
      · split
        · refine (foldl_rewardStep_reward _ _ _ _ _ _ _ j Vote.buyer hndz
            hmem hcorrect hR ?_).1
          exact hbal
        · rename_i hguard
          exact absurd (And.intro hcv hpool) hguard
      · split
        · refine (foldl_rewardStep_reward _ _ _ _ _ _ _ j Vote.buyer hndz
            hmem hcorrect hR ?_).2
          exact hbal
        · rename_i hguard
          exact absurd (And.intro hcv hpool) hguard
    · refine ⟨_, rfl, ?_, ?_⟩
      · split
        · refine (foldl_rewardStep_reward _ _ _ _ _ _ _ j Vote.buyer hndz
            hmem hcorrect hR ?_).1
          exact hbal
        · rename_i hguard
          exact absurd (And.intro hcv hpool) hguard
      · split
        · refine (foldl_rewardStep_reward _ _ _ _ _ _ _ j Vote.buyer hndz
            hmem hcorrect hR ?_).2
          exact hbal
        · rename_i hguard
          exact absurd (And.intro hcv hpool) hguard

/-- A registry in which juror 11 has unregistered (inactive) while the
others are active. -/
def c10Jurors : Nat → Juror :=
  fun a => { stake := 2000, reputation := 100, isActive := !(a == 11),
             lastActive := 0 }

/-- Commit-phase state: juror 11 is assigned but inactive, nobody has
committed yet. -/
def c10PreDispute : Dispute :=
  { c2Dispute with hasVoted := fun _ => false }

/-- State holding `c10PreDispute` with juror 11 inactive. -/
def c10PreState : DCState :=
  { dispute := c10PreDispute, jurors := c10Jurors,
    activeJurors := [12, 13], contractBalance := 10000,
    payments := [], escrowCalls := [] }

/-- Reveal-phase state: juror 11 is inactive but committed to
(Buyer, 42). -/
def c10RevealState : DCState :=
  { dispute := c2Dispute, jurors := c10Jurors, activeJurors := [12, 13],
    contractBalance := 10000, payments := [], escrowCalls := [] }

/-- Resolution-phase state: juror 11 is inactive but voted Buyer in the
fully revealed 2-1 case. -/
def c10ResolveState : DCState :=
  { dispute := c3Dispute, jurors := c10Jurors, activeJurors := [12, 13],
    contractBalance := 10000, payments := [], escrowCalls := [] }

/-- Witness for C10: the unregistered (inactive) juror 11 successfully
commits, successfully reveals and is counted, and is rewarded with 10
reputation and a share of the reward pool at resolution. -/
theorem c10_unregistered_juror_still_participates_witness :
    (castVote sampleDParams 100 11 5 c10PreState).isSome = true ∧
    (∃ st', revealVote sampleDParams sampleHashFn 350 11 Vote.buyer 42
        true c10RevealState = some st' ∧
      st'.dispute.buyerVotes = c10RevealState.dispute.buyerVotes + 1) ∧
    (∃ st', resolveDisputeInternal sampleDParams 800 true c10ResolveState
        = some st' ∧
      (st'.jurors 11).reputation
        = (c10ResolveState.jurors 11).reputation + 10 ∧
      (11, c10ResolveState.dispute.totalStake
          * sampleDParams.rewardPoolPercentage / 10000
          / countCorrect c10ResolveState.dispute
              (disputeWinner c10ResolveState.dispute)) ∈ st'.payments) :=
  ⟨(c10_unregistered_juror_still_participates sampleDParams
      c10PreState).2.1 100 11 5 (by decide) (by decide) (by decide)
      (by decide) (by decide) (by decide),
   (c10_unregistered_juror_still_participates sampleDParams
      c10RevealState).2.2.1 sampleHashFn 350 11 42 (by decide) (by decide)
      (by decide) (by decide) (by decide) (by decide) (by decide)
      (by decide),
   (c10_unregistered_juror_still_participates sampleDParams
      c10ResolveState).2.2.2 800 11 (by decide) (by decide) (by decide)
      (by decide) (by decide) (by decide) (by decide)⟩
